import Mathlib

/-!
Verification of the calibration-lifecycle core of the T1-LIMS repository.

The status enumerations (`frontend/src/types`), the SRF form-validation
schema (`utils/validators.ts`), and the `ProtectedRoute` component
(`App.tsx`) are translated directly from the TypeScript sources.  The
backend lifecycle engine (transition validator, entity store, inward
creation, eligibility query) is not part of the checked-in sources — only
its HTTP callers in `services/srfApi.ts` are — so those components are
modelled from the specification, as marked on each definition.
-/

namespace LIMS

/-- SRF status enumeration, translated from the `SRFStatus` enum in the
frontend types module. -/
inductive SRFStatus where
  | submitted
  | under_review
  | accepted
  | inward_completed
  | in_progress
  | completed
  deriving DecidableEq, Repr

/-- String value of each `SRFStatus` member, as declared in the source. -/
def SRFStatus.value : SRFStatus → String
  | .submitted => "submitted"
  | .under_review => "under_review"
  | .accepted => "accepted"
  | .inward_completed => "inward_completed"
  | .in_progress => "in_progress"
  | .completed => "completed"

/-- The `SRFStatus` members in declaration order. -/
def SRFStatus.all : List SRFStatus :=
  [.submitted, .under_review, .accepted, .inward_completed, .in_progress, .completed]

/-- Inward status enumeration, translated from the `InwardStatus` enum in
the frontend types module. -/
inductive InwardStatus where
  | received
  | inspection_complete
  | ready_for_calibration
  | in_calibration
  | calibration_complete
  | ready_for_dispatch
  | dispatched
  deriving DecidableEq, Repr

/-- String value of each `InwardStatus` member, as declared in the source. -/
def InwardStatus.value : InwardStatus → String
  | .received => "received"
  | .inspection_complete => "inspection_complete"
  | .ready_for_calibration => "ready_for_calibration"
  | .in_calibration => "in_calibration"
  | .calibration_complete => "calibration_complete"
  | .ready_for_dispatch => "ready_for_dispatch"
  | .dispatched => "dispatched"

/-- The `InwardStatus` members in declaration order. -/
def InwardStatus.all : List InwardStatus :=
  [.received, .inspection_complete, .ready_for_calibration, .in_calibration,
   .calibration_complete, .ready_for_dispatch, .dispatched]

/-- Job status enumeration, translated from the `JobStatus` enum in the
frontend types module. -/
inductive JobStatus where
  | pending
  | in_progress
  | measurements_complete
  | calculations_complete
  | under_review
  | deviation_pending
  | approved
  | certificate_generated
  | completed
  | on_hold
  deriving DecidableEq, Repr

/-- String value of each `JobStatus` member, as declared in the source. -/
def JobStatus.value : JobStatus → String
  | .pending => "pending"
  | .in_progress => "in_progress"
  | .measurements_complete => "measurements_complete"
  | .calculations_complete => "calculations_complete"
  | .under_review => "under_review"
  | .deviation_pending => "deviation_pending"
  | .approved => "approved"
  | .certificate_generated => "certificate_generated"
  | .completed => "completed"
  | .on_hold => "on_hold"

/-- The `JobStatus` members in declaration order. -/
def JobStatus.all : List JobStatus :=
  [.pending, .in_progress, .measurements_complete, .calculations_complete,
   .under_review, .deviation_pending, .approved, .certificate_generated,
   .completed, .on_hold]

/-- Result of a transition attempt.  Modelled from the spec: the Lifecycle
Engine returns either the committed new state or a typed rejection whose
reason code is machine-readable. -/
inductive TransitionResult where
  | allowed
  | rejected (reason : String)
  deriving DecidableEq, Repr

/-- One edge of a per-entity transition table.  Modelled from the spec:
the design notes call for an explicit transition table of
(from-state, to-state, guard-list) entries; states are identified by their
index in the entity's status enumeration. -/
structure Edge where
  src : Nat
  dst : Nat
  guards : List String
  deriving DecidableEq, Repr

/-- Per-entity state graph: the ordered status enumeration together with
its transition table.  Modelled from the spec: each status enumeration is
a finite state machine whose edges are the adjacent pairs listed, with
guard predicates on each edge. -/
structure StateGraph where
  statuses : List String
  edges : List Edge
  deriving DecidableEq, Repr

/-- Modelled from the spec: the SRF state graph.  Edges are the adjacent
pairs of the SRF status enumeration; `inward_completed` requires every
child item to have an Inward, `completed` requires every child Job to be
terminal. -/
def srfGraph : StateGraph where
  statuses := SRFStatus.all.map SRFStatus.value
  edges :=
    [⟨0, 1, []⟩, ⟨1, 2, []⟩, ⟨2, 3, ["all_items_inwarded"]⟩,
     ⟨3, 4, []⟩, ⟨4, 5, ["all_jobs_terminal"]⟩]

/-- Modelled from the spec: the Inward state graph.  Edges are the
adjacent pairs of the Inward status enumeration; `dispatched` is terminal. -/
def inwardGraph : StateGraph where
  statuses := InwardStatus.all.map InwardStatus.value
  edges :=
    [⟨0, 1, []⟩, ⟨1, 2, []⟩, ⟨2, 3, []⟩, ⟨3, 4, []⟩, ⟨4, 5, []⟩, ⟨5, 6, []⟩]

/-- Modelled from the spec: the Job state graph.  Edges are the adjacent
pairs of the Job status enumeration; leaving `in_progress` requires all
measurement points recorded, and reaching `approved` requires no open
deviation. -/
def jobGraph : StateGraph where
  statuses := JobStatus.all.map JobStatus.value
  edges :=
    [⟨0, 1, []⟩, ⟨1, 2, ["all_points_recorded"]⟩, ⟨2, 3, []⟩, ⟨3, 4, []⟩,
     ⟨4, 5, []⟩, ⟨5, 6, ["no_open_deviation"]⟩, ⟨6, 7, []⟩, ⟨7, 8, []⟩,
     ⟨8, 9, []⟩]

/-- The entity kinds whose lifecycle the core manages. -/
inductive EntityKind where
  | srf
  | inward
  | job
  deriving DecidableEq, Repr

/-- The state graph of each entity kind. -/
def graphOf : EntityKind → StateGraph
  | .srf => srfGraph
  | .inward => inwardGraph
  | .job => jobGraph

/-- A status (index) is terminal when it has no outgoing edge.  Modelled
from the spec: closure is represented by terminal status values. -/
def isTerminal (g : StateGraph) (cur : Nat) : Bool :=
  g.edges.all fun e => e.src != cur

/-- Look up the edge from `cur` to `req` in the transition table. -/
def findEdge (g : StateGraph) (cur req : Nat) : Option Edge :=
  g.edges.find? fun e => e.src == cur && e.dst == req

/-- Modelled from the spec: the Transition Validator.  A transition from a
terminal status is rejected with `terminal_state`; a request with no edge
in the graph is rejected with `invalid_transition`; an unmet guard rejects
with `guard_failed:<name>`; otherwise the transition is allowed.  The
context assigns a truth value to each named guard fact. -/
def validate (g : StateGraph) (cur req : Nat) (ctx : String → Bool) : TransitionResult :=
  if isTerminal g cur then .rejected "terminal_state"
  else
    match findEdge g cur req with
    | none => .rejected "invalid_transition"
    | some e =>
      match e.guards.find? (fun gd => !(ctx gd)) with
      | some gd => .rejected ("guard_failed:" ++ gd)
      | none => .allowed

/-- Modelled from the spec: the Lifecycle Engine's state change for one
status-update request — the new status when the validator allows it, the
unchanged status otherwise (failed calls have zero observable side
effects). -/
def applyReq (g : StateGraph) (cur req : Nat) (ctx : String → Bool) : Nat :=
  match validate g cur req ctx with
  | .allowed => req
  | .rejected _ => cur

/-- Replay a list of transition requests from a starting status, recording
every intermediate status (the event-log trace of the spec). -/
def replay (g : StateGraph) (cur : Nat) : List (Nat × (String → Bool)) → List Nat
  | [] => [cur]
  | (req, ctx) :: rest => cur :: replay g (applyReq g cur req ctx) rest

/-- Stored SRF record: identifier and current status (the fields the
inward-eligibility guard inspects). -/
structure SRFRec where
  id : Nat
  status : SRFStatus
  deriving DecidableEq, Repr

/-- Stored SRF item record: identifier and parent SRF reference. -/
structure SRFItemRec where
  id : Nat
  srfId : Nat
  deriving DecidableEq, Repr

/-- Stored Inward record: the SRF item it belongs to and its status. -/
structure InwardRec where
  itemId : Nat
  status : InwardStatus
  deriving DecidableEq, Repr

/-- Modelled from the spec: the Entity Store — the durable record of every
lifecycle entity and its current status, the single source of truth. -/
structure Store where
  srfs : List SRFRec
  items : List SRFItemRec
  inwards : List InwardRec
  deriving DecidableEq, Repr

/-- Look up an SRF by identifier. -/
def findSRF (s : Store) (srfId : Nat) : Option SRFRec :=
  s.srfs.find? fun r => r.id == srfId

/-- Look up an SRF item by identifier under its parent SRF. -/
def findItem (s : Store) (srfId itemId : Nat) : Option SRFItemRec :=
  s.items.find? fun r => r.id == itemId && r.srfId == srfId

/-- Whether the item has an active (non-dispatched) Inward record. -/
def activeInwardExists (s : Store) (itemId : Nat) : Bool :=
  s.inwards.any fun iw => iw.itemId == itemId && iw.status != InwardStatus.dispatched

/-- Whether an SRF status permits inwarding its items: `accepted` or
`inward_completed`. -/
def srfStatusReady (st : SRFStatus) : Bool :=
  st == SRFStatus.accepted || st == SRFStatus.inward_completed

/-- Shape of an eligibility response: an `eligible` flag and an optional
reason code. -/
structure EligResult where
  eligible : Bool
  reason : Option String
  deriving DecidableEq, Repr

/-- Modelled from the spec: the inward-eligibility check behind the
`checkInwardEligible` endpoint of `srfApi`.  An SRF item is
inward-eligible iff its parent SRF status is `accepted` or
`inward_completed` and it has no active (non-dispatched) Inward; an item
that already has an active Inward is reported with reason code
`already_inward`. -/
def checkInwardEligible (s : Store) (srfId itemId : Nat) : EligResult :=
  match findSRF s srfId, findItem s srfId itemId with
  | some srf, some _ =>
    if !(srfStatusReady srf.status) then ⟨false, some "srf_not_ready"⟩
    else if activeInwardExists s itemId then ⟨false, some "already_inward"⟩
    else ⟨true, none⟩
  | _, _ => ⟨false, some "not_found"⟩

/-- Modelled from the spec: the Lifecycle Engine's inward-creation
command.  Under the item-scoped lock it evaluates the `inward_eligible`
guard; when the guard holds it atomically persists a new Inward row in
status `received`, otherwise it returns the typed rejection without
mutating anything. -/
def createInward (s : Store) (srfId itemId : Nat) : Store × TransitionResult :=
  if (checkInwardEligible s srfId itemId).eligible then
    ({ s with inwards := ⟨itemId, InwardStatus.received⟩ :: s.inwards }, .allowed)
  else (s, .rejected "guard_failed:inward_eligible")

/-- Run `n` inward-creation attempts for the same SRF item, one after the
other.  Modelled from the spec: the lock scoped to the parent SRF item
serializes concurrent creation attempts, so any set of concurrent attempts
executes as some sequential order. -/
def runCreates : Nat → Store → Nat → Nat → Store × List TransitionResult
  | 0, s, _, _ => (s, [])
  | n + 1, s, srfId, itemId =>
    let first := createInward s srfId itemId
    let rest := runCreates n first.1 srfId itemId
    (rest.1, first.2 :: rest.2)

/-- Modelled from the spec: the Eligibility Query Service as a store
operation — it answers from the current snapshot using the same guard as
the engine and returns the store untouched. -/
def eligibilityQuery (s : Store) (srfId itemId : Nat) : Store × EligResult :=
  (s, checkInwardEligible s srfId itemId)

/-- Form data for one SRF item as submitted to the `srfSchema` validator
(`utils/validators.ts`).  Fields the schema marks optional, or whose
absence the schema fills with a default, are `Option`s. -/
structure SRFItemForm where
  equip_desc : Option String
  make : Option String
  model : Option String
  serial_no : Option String
  range_text : Option String
  unit : Option String
  calibration_points : Option String
  calibration_mode : Option String
  quantity : Option Int
  remarks : Option String
  deriving DecidableEq, Repr

/-- Form data for an SRF creation request as submitted to `srfSchema`;
per the `SRFCreateRequest` type the `items` field is always present. -/
structure SRFForm where
  contact_person : Option String
  special_instructions : Option String
  priority : Option String
  items : List SRFItemForm
  deriving DecidableEq, Repr

/-- Validation of one item object inside `srfSchema.items`: `equip_desc`
and `serial_no` are required (present and non-empty), `quantity` when
present must be at least 1, everything else is optional. -/
def srfItemValid (it : SRFItemForm) : Bool :=
  (match it.equip_desc with
   | none => false
   | some d => d.length > 0) &&
  (match it.serial_no with
   | none => false
   | some sn => sn.length > 0) &&
  (match it.quantity with
   | none => true
   | some q => 1 ≤ q)

/-- The `srfSchema` validator from `utils/validators.ts`: `contact_person`
is required with at least 2 characters, `priority` when present must be
one of normal/urgent/critical, and `items` must hold at least one valid
item. -/
def srfSchemaValid (f : SRFForm) : Bool :=
  (match f.contact_person with
   | none => false
   | some cp => cp.length > 0 && 2 ≤ cp.length) &&
  (match f.priority with
   | none => true
   | some p => p == "normal" || p == "urgent" || p == "critical") &&
  f.items.all srfItemValid &&
  1 ≤ f.items.length

/-- The cast `srfSchema` applies to `quantity`: default 1 when absent. -/
def castQuantity (q : Option Int) : Int :=
  q.getD 1

/-- The cast `srfSchema` applies to `priority`: default "normal" when
absent. -/
def castPriority (p : Option String) : String :=
  p.getD "normal"

/-- Authenticated user as seen by `ProtectedRoute` in `App.tsx`: its
`user_type` and `role` string fields. -/
structure AuthUser where
  user_type : String
  role : String
  deriving DecidableEq, Repr

/-- The slice of the auth state `ProtectedRoute` reads: the
`isAuthenticated` flag and the possibly-absent `user`. -/
structure AuthState where
  isAuthenticated : Bool
  user : Option AuthUser
  deriving DecidableEq, Repr

/-- The `requiredUserType` prop of `ProtectedRoute`, a union of the two
string literals `staff` and `customer`. -/
inductive ReqUserType where
  | staff
  | customer
  deriving DecidableEq, Repr

/-- String value of a `ReqUserType` literal. -/
def ReqUserType.value : ReqUserType → String
  | .staff => "staff"
  | .customer => "customer"

/-- What a render of `ProtectedRoute` produces: the protected children or
a redirect to the login route. -/
inductive RenderResult where
  | children
  | redirectLogin
  deriving DecidableEq, Repr

/-- The optional chain `user?.user_type`: absent user gives no value. -/
def userTypeOf (u : Option AuthUser) : Option String :=
  u.map fun x => x.user_type

/-- The expression `user?.role || ''` from the source: the user's role,
or the empty string when the user is absent. -/
def roleOf (u : Option AuthUser) : String :=
  match u with
  | some x => x.role
  | none => ""

/-- The `ProtectedRoute` component from `App.tsx`, translated clause by
clause: redirect when not authenticated; redirect when a
`requiredUserType` is given and `user?.user_type` differs from it;
redirect when a `requiredRole` list is given and does not contain
`user?.role || ''`; otherwise render the children. -/
def protectedRoute (auth : AuthState) (requiredUserType : Option ReqUserType)
    (requiredRole : Option (List String)) : RenderResult :=
  if !auth.isAuthenticated then .redirectLogin
  else if (match requiredUserType with
           | none => false
           | some t => userTypeOf auth.user != some t.value) then .redirectLogin
  else if (match requiredRole with
           | none => false
           | some roles => !(roles.contains (roleOf auth.user))) then .redirectLogin
  else .children

lemma findEdge_spec (g : StateGraph) (cur req : Nat) (e : Edge)
    (h : findEdge g cur req = some e) :
    e ∈ g.edges ∧ e.src = cur ∧ e.dst = req := by
  have h' : List.find? (fun x => x.src == cur && x.dst == req) g.edges = some e := h
  have hpe : (e.src == cur && e.dst == req) = true := by
    have hx := List.find?_some h'
    simpa using hx
  refine ⟨List.mem_of_find?_eq_some h', ?_, ?_⟩
  · exact beq_iff_eq.mp ((Bool.and_eq_true _ _).mp hpe).1
  · exact beq_iff_eq.mp ((Bool.and_eq_true _ _).mp hpe).2

lemma isTerminal_eq_false_of_findEdge (g : StateGraph) (cur req : Nat) (e : Edge)
    (h : findEdge g cur req = some e) : isTerminal g cur = false := by
  obtain ⟨hmem, hsrc, -⟩ := findEdge_spec g cur req e h
  cases hx : isTerminal g cur with
  | false => rfl
  | true =>
    exfalso
    have hall := List.all_eq_true.mp hx e hmem
    rw [hsrc] at hall
    simp at hall

lemma validate_allowed_iff (g : StateGraph) (cur req : Nat) (ctx : String → Bool) :
    validate g cur req ctx = TransitionResult.allowed ↔
      ∃ e, findEdge g cur req = some e ∧ ∀ gd ∈ e.guards, ctx gd = true := by
  unfold validate
  cases hfe : findEdge g cur req with
  | none => cases hterm : isTerminal g cur <;> simp
  | some e =>
    have hterm := isTerminal_eq_false_of_findEdge g cur req e hfe
    rw [hterm]
    cases hg : e.guards.find? (fun gd => !(ctx gd)) with
    | none =>
      simp only [Bool.false_eq_true, if_false, hg]
      constructor
      · intro _
        refine ⟨e, rfl, fun gd hgd => ?_⟩
        have hne := List.find?_eq_none.mp hg gd hgd
        simpa using hne
      · intro _
        trivial
    | some gd =>
      have hg' : List.find? (fun gd => !(ctx gd)) e.guards = some gd := hg
      have hmem : gd ∈ e.guards := List.mem_of_find?_eq_some hg'
      have hp : ctx gd = false := by
        have hx := List.find?_some hg'
        simpa using hx
      simp only [Bool.false_eq_true, if_false, hg]
      constructor
      · intro hcontra
        exact absurd hcontra (by simp)
      · rintro ⟨e', he', hall⟩
        obtain rfl : e = e' := Option.some.inj he'
        rw [hall gd hmem] at hp
        exact Bool.noConfusion hp

lemma graph_edges_adjacent (k : EntityKind) :
    ∀ e ∈ (graphOf k).edges, e.dst = e.src + 1 := by
  have hall : ((graphOf k).edges.all fun e => e.dst == e.src + 1) = true := by
    cases k <;> decide
  intro e he
  exact beq_iff_eq.mp (List.all_eq_true.mp hall e he)

lemma validate_allowed_step (k : EntityKind) (cur req : Nat) (ctx : String → Bool)
    (h : validate (graphOf k) cur req ctx = TransitionResult.allowed) : req = cur + 1 := by
  obtain ⟨e, hfe, -⟩ := (validate_allowed_iff _ _ _ _).mp h
  obtain ⟨hmem, hsrc, hdst⟩ := findEdge_spec _ _ _ _ hfe
  have hadj := graph_edges_adjacent k e hmem
  omega

lemma applyReq_ge (k : EntityKind) (cur req : Nat) (ctx : String → Bool) :
    cur ≤ applyReq (graphOf k) cur req ctx := by
  unfold applyReq
  cases hv : validate (graphOf k) cur req ctx with
  | allowed =>
    have hstep := validate_allowed_step k cur req ctx hv
    show cur ≤ req
    omega
  | rejected r => exact Nat.le_refl cur

lemma replay_head (g : StateGraph) (cur : Nat) (reqs : List (Nat × (String → Bool))) :
    ∃ t, replay g cur reqs = cur :: t := by
  cases reqs with
  | nil => exact ⟨[], rfl⟩
  | cons p rest =>
    obtain ⟨req, ctx⟩ := p
    exact ⟨_, rfl⟩

lemma replay_chain (k : EntityKind) (reqs : List (Nat × (String → Bool))) :
    ∀ cur, List.Chain' (· ≤ ·) (replay (graphOf k) cur reqs) := by
  induction reqs with
  | nil =>
    intro cur
    simp [replay]
  | cons p rest ih =>
    intro cur
    obtain ⟨req, ctx⟩ := p
    obtain ⟨t, ht⟩ := replay_head (graphOf k) (applyReq (graphOf k) cur req ctx) rest
    have hch := ih (applyReq (graphOf k) cur req ctx)
    rw [ht] at hch
    show List.Chain' (· ≤ ·) (cur :: replay (graphOf k) (applyReq (graphOf k) cur req ctx) rest)
    rw [ht]
    exact List.Chain'.cons (applyReq_ge k cur req ctx) hch

lemma srfStatusReady_iff (st : SRFStatus) :
    srfStatusReady st = true ↔
      (st = SRFStatus.accepted ∨ st = SRFStatus.inward_completed) := by
  cases st <;> simp [srfStatusReady]

lemma activeInwardExists_false_iff (s : Store) (itemId : Nat) :
    activeInwardExists s itemId = false ↔
      ∀ iw ∈ s.inwards, iw.itemId = itemId → iw.status = InwardStatus.dispatched := by
  rw [← Bool.not_eq_true]
  unfold activeInwardExists
  rw [List.any_eq_true]
  constructor
  · intro h iw hm heq
    by_contra hne
    exact h ⟨iw, hm, by simp [heq, hne]⟩
  · rintro h ⟨iw, hm, hp⟩
    have h1 : iw.itemId = itemId := beq_iff_eq.mp ((Bool.and_eq_true _ _).mp hp).1
    have h2 : iw.status ≠ InwardStatus.dispatched := by
      have hx := ((Bool.and_eq_true _ _).mp hp).2
      simpa using hx
    exact h2 (h iw hm h1)

lemma checkInwardEligible_false_of_active (s : Store) (srfId itemId : Nat)
    (h : activeInwardExists s itemId = true) :
    (checkInwardEligible s srfId itemId).eligible = false := by
  unfold checkInwardEligible
  cases hs : findSRF s srfId with
  | none => rfl
  | some srf =>
    cases hi : findItem s srfId itemId with
    | none => rfl
    | some item =>
      by_cases hr : srfStatusReady srf.status = true
      · simp [hr, h]
      · simp [hr]

lemma createInward_of_ineligible (s : Store) (srfId itemId : Nat)
    (h : (checkInwardEligible s srfId itemId).eligible = false) :
    createInward s srfId itemId =
      (s, TransitionResult.rejected "guard_failed:inward_eligible") := by
  unfold createInward
  simp [h]

lemma createInward_active (s : Store) (itemId : Nat) :
    activeInwardExists
      { s with inwards := ⟨itemId, InwardStatus.received⟩ :: s.inwards } itemId = true := by
  simp [activeInwardExists]

lemma runCreates_of_active (srfId itemId : Nat) :
    ∀ (n : Nat) (s : Store), activeInwardExists s itemId = true →
      runCreates n s srfId itemId =
        (s, List.replicate n (TransitionResult.rejected "guard_failed:inward_eligible")) := by
  intro n
  induction n with
  | zero => intro s _; rfl
  | succ m ih =>
    intro s h
    have hel := checkInwardEligible_false_of_active s srfId itemId h
    have hc := createInward_of_ineligible s srfId itemId hel
    show runCreates (m + 1) s srfId itemId = _
    rw [runCreates, hc, ih s h]
    rfl

/-- C7: the status enumerations are exactly the spec's sets — SRF, Inward
and Job statuses have exactly the listed string values, in the listed
order, with every member listed once. -/
theorem status_enumerations_exact :
    SRFStatus.all.map SRFStatus.value =
      ["submitted", "under_review", "accepted", "inward_completed", "in_progress",
       "completed"] ∧
    (∀ s : SRFStatus, s ∈ SRFStatus.all) ∧ SRFStatus.all.Nodup ∧
    InwardStatus.all.map InwardStatus.value =
      ["received", "inspection_complete", "ready_for_calibration", "in_calibration",
       "calibration_complete", "ready_for_dispatch", "dispatched"] ∧
    (∀ s : InwardStatus, s ∈ InwardStatus.all) ∧ InwardStatus.all.Nodup ∧
    JobStatus.all.map JobStatus.value =
      ["pending", "in_progress", "measurements_complete", "calculations_complete",
       "under_review", "deviation_pending", "approved", "certificate_generated",
       "completed", "on_hold"] ∧
    (∀ s : JobStatus, s ∈ JobStatus.all) ∧ JobStatus.all.Nodup := by
  refine ⟨rfl, ?_, by decide, rfl, ?_, by decide, rfl, ?_, by decide⟩ <;>
    intro s <;> cases s <;> decide

/-- C2: for every entity, a transition is accepted iff the edge from the
current to the requested status exists in the entity's state graph and
every guard on that edge evaluates true against the supplied context;
moreover the graph's edges are exactly the adjacent pairs of the status
enumeration, so no transition skips an intermediate state. -/
theorem transition_accepted_iff_edge_and_guards (k : EntityKind) (cur req : Nat)
    (ctx : String → Bool) :
    (validate (graphOf k) cur req ctx = TransitionResult.allowed ↔
      ∃ e, findEdge (graphOf k) cur req = some e ∧ ∀ gd ∈ e.guards, ctx gd = true) ∧
    (∀ e ∈ (graphOf k).edges, e.dst = e.src + 1) ∧
    (∀ i, i + 2 ≤ (graphOf k).statuses.length →
      (findEdge (graphOf k) i (i + 1)).isSome = true) := by
  refine ⟨validate_allowed_iff _ _ _ _, graph_edges_adjacent k, ?_⟩
  intro i hi
  cases k with
  | srf =>
    rw [show (graphOf EntityKind.srf).statuses.length = 6 from rfl] at hi
    have hub : i ≤ 4 := by omega
    interval_cases i <;> decide
  | inward =>
    rw [show (graphOf EntityKind.inward).statuses.length = 7 from rfl] at hi
    have hub : i ≤ 5 := by omega
    interval_cases i <;> decide
  | job =>
    rw [show (graphOf EntityKind.job).statuses.length = 10 from rfl] at hi
    have hub : i ≤ 8 := by omega
    interval_cases i <;> decide

/-- C3: replaying any sequence of transition requests from the initial
status, the entity's status index in its state graph is non-decreasing —
no accepted transition ever moves the status to an earlier position. -/
theorem status_index_monotone (k : EntityKind) (reqs : List (Nat × (String → Bool))) :
    List.Chain' (· ≤ ·) (replay (graphOf k) 0 reqs) :=
  replay_chain k reqs 0

/-- C5: resubmitting an already-applied transition (the entity is already
in the requested status, or past it) is rejected with `terminal_state` or
`invalid_transition` and leaves the state unchanged; and a second
inward-creation for an item whose Inward was just created is rejected
without creating a second Inward record. -/
theorem resubmitted_transition_rejected :
    (∀ (k : EntityKind) (cur req : Nat) (ctx : String → Bool), req ≤ cur →
      (validate (graphOf k) cur req ctx = TransitionResult.rejected "terminal_state" ∨
        validate (graphOf k) cur req ctx = TransitionResult.rejected "invalid_transition") ∧
      applyReq (graphOf k) cur req ctx = cur) ∧
    (∀ (s s1 : Store) (srfId itemId : Nat),
      createInward s srfId itemId = (s1, TransitionResult.allowed) →
      createInward s1 srfId itemId =
        (s1, TransitionResult.rejected "guard_failed:inward_eligible")) := by
  constructor
  · intro k cur req ctx hle
    have hfe : findEdge (graphOf k) cur req = none := by
      cases hfe : findEdge (graphOf k) cur req with
      | none => rfl
      | some e =>
        obtain ⟨hmem, hsrc, hdst⟩ := findEdge_spec _ _ _ _ hfe
        have hadj := graph_edges_adjacent k e hmem
        omega
    constructor
    · unfold validate
      rw [hfe]
      cases isTerminal (graphOf k) cur
      · right; rfl
      · left; rfl
    · unfold applyReq validate
      rw [hfe]
      cases isTerminal (graphOf k) cur <;> rfl
  · intro s s1 srfId itemId h
    unfold createInward at h
    by_cases he : (checkInwardEligible s srfId itemId).eligible = true
    · rw [if_pos he, Prod.ext_iff] at h
      obtain ⟨h1, -⟩ := h
      subst h1
      exact createInward_of_ineligible _ srfId itemId
        (checkInwardEligible_false_of_active _ srfId itemId (createInward_active s itemId))
    · rw [if_neg he, Prod.ext_iff] at h
      exact absurd h.2 (by simp)

/-- Witness for C5 at a concrete input: an SRF already in `accepted`
(index 2) rejects a repeated request for `accepted`, and a store whose
item already has a `received` Inward rejects a second creation. -/
theorem resubmitted_transition_rejected_witness :
    ((validate (graphOf EntityKind.srf) 2 2 (fun _ => true) =
        TransitionResult.rejected "terminal_state" ∨
      validate (graphOf EntityKind.srf) 2 2 (fun _ => true) =
        TransitionResult.rejected "invalid_transition") ∧
      applyReq (graphOf EntityKind.srf) 2 2 (fun _ => true) = 2) ∧
    createInward ⟨[⟨1, SRFStatus.accepted⟩], [⟨10, 1⟩], [⟨10, InwardStatus.received⟩]⟩ 1 10 =
      (⟨[⟨1, SRFStatus.accepted⟩], [⟨10, 1⟩], [⟨10, InwardStatus.received⟩]⟩,
        TransitionResult.rejected "guard_failed:inward_eligible") :=
  ⟨resubmitted_transition_rejected.1 EntityKind.srf 2 2 (fun _ => true) (by decide),
    resubmitted_transition_rejected.2
      ⟨[⟨1, SRFStatus.accepted⟩], [⟨10, 1⟩], []⟩
      ⟨[⟨1, SRFStatus.accepted⟩], [⟨10, 1⟩], [⟨10, InwardStatus.received⟩]⟩
      1 10 (by decide)⟩

/-- C1: the inward-eligibility check returns `eligible = true` exactly
when the item's parent SRF status is `accepted` or `inward_completed` and
the item has no active (non-dispatched) Inward record. -/
theorem srfItem_inward_eligibility_iff (s : Store) (srfId itemId : Nat) (srf : SRFRec)
    (hsrf : findSRF s srfId = some srf) (hitem : (findItem s srfId itemId).isSome = true) :
    ((checkInwardEligible s srfId itemId).eligible = true ↔
      ((srf.status = SRFStatus.accepted ∨ srf.status = SRFStatus.inward_completed) ∧
        ∀ iw ∈ s.inwards, iw.itemId = itemId → iw.status = InwardStatus.dispatched)) := by
  obtain ⟨item, hit⟩ := Option.isSome_iff_exists.mp hitem
  unfold checkInwardEligible
  rw [hsrf, hit]
  by_cases hr : srfStatusReady srf.status = true
  · by_cases ha : activeInwardExists s itemId = true
    · simp only [hr, ha, Bool.not_true, Bool.false_eq_true, if_false, if_true]
      constructor
      · intro hcontra
        exact absurd hcontra (by simp)
      · rintro ⟨-, hall⟩
        rw [← activeInwardExists_false_iff] at hall
        rw [hall] at ha
        exact Bool.noConfusion ha
    · have ha' : activeInwardExists s itemId = false := by
        cases hx : activeInwardExists s itemId
        · rfl
        · exact absurd hx ha
      simp only [hr, ha', Bool.not_true, Bool.false_eq_true, if_false]
      constructor
      · intro _
        exact ⟨(srfStatusReady_iff srf.status).mp hr,
          (activeInwardExists_false_iff s itemId).mp ha'⟩
      · intro _
        trivial
  · have hr' : srfStatusReady srf.status = false := by
      cases hx : srfStatusReady srf.status
      · rfl
      · exact absurd hx hr
    simp only [hr', Bool.not_false, if_true]
    constructor
    · intro hcontra
      exact absurd hcontra (by simp)
    · rintro ⟨hst, -⟩
      exact absurd ((srfStatusReady_iff srf.status).mpr hst) hr

/-- Witness for C1 at a concrete input: one SRF in `accepted` with one
item and no Inward records. -/
theorem srfItem_inward_eligibility_iff_witness :
    (checkInwardEligible ⟨[⟨1, SRFStatus.accepted⟩], [⟨10, 1⟩], []⟩ 1 10).eligible = true ↔
      ((SRFStatus.accepted = SRFStatus.accepted ∨
        SRFStatus.accepted = SRFStatus.inward_completed) ∧
        ∀ iw ∈ ([] : List InwardRec), iw.itemId = 10 → iw.status = InwardStatus.dispatched) :=
  srfItem_inward_eligibility_iff ⟨[⟨1, SRFStatus.accepted⟩], [⟨10, 1⟩], []⟩ 1 10
    ⟨1, SRFStatus.accepted⟩ (by decide) (by decide)

/-- C4: scenario A — the eligibility response has the shape of an
`eligible` flag with an optional reason code; for an SRF in `accepted`
with one item and no Inward the check returns `eligible = true`, and
after the Inward is created a second check returns `eligible = false`
with reason code `already_inward`. -/
theorem eligibility_scenario_a :
    checkInwardEligible ⟨[⟨1, SRFStatus.accepted⟩], [⟨10, 1⟩], []⟩ 1 10 = ⟨true, none⟩ ∧
    (createInward ⟨[⟨1, SRFStatus.accepted⟩], [⟨10, 1⟩], []⟩ 1 10).2 =
      TransitionResult.allowed ∧
    checkInwardEligible
      (createInward ⟨[⟨1, SRFStatus.accepted⟩], [⟨10, 1⟩], []⟩ 1 10).1 1 10 =
      ⟨false, some "already_inward"⟩ :=
  ⟨rfl, rfl, rfl⟩

/-- C6: under the item-scoped lock that serializes them, `n ≥ 1` creation
attempts for the same eligible SRF item yield exactly one success and
`n - 1` rejections with `guard_failed:inward_eligible`, and exactly one
Inward record is added. -/
theorem concurrent_inward_creates_once (n : Nat) (s : Store) (srfId itemId : Nat)
    (hn : 1 ≤ n) (helig : (checkInwardEligible s srfId itemId).eligible = true) :
    (runCreates n s srfId itemId).2.length = n ∧
    (runCreates n s srfId itemId).2.count TransitionResult.allowed = 1 ∧
    (runCreates n s srfId itemId).2.count
      (TransitionResult.rejected "guard_failed:inward_eligible") = n - 1 ∧
    (runCreates n s srfId itemId).1.inwards.length = s.inwards.length + 1 := by
  obtain ⟨m, rfl⟩ : ∃ m, n = m + 1 := ⟨n - 1, by omega⟩
  have hcreate : createInward s srfId itemId =
      ({ s with inwards := ⟨itemId, InwardStatus.received⟩ :: s.inwards },
        TransitionResult.allowed) := by
    unfold createInward
    rw [if_pos helig]
  have hact := createInward_active s itemId
  have hrun := runCreates_of_active srfId itemId m _ hact
  have hmain : runCreates (m + 1) s srfId itemId =
      ({ s with inwards := ⟨itemId, InwardStatus.received⟩ :: s.inwards },
        TransitionResult.allowed ::
          List.replicate m (TransitionResult.rejected "guard_failed:inward_eligible")) := by
    have hstep : runCreates (m + 1) s srfId itemId =
        ((runCreates m (createInward s srfId itemId).1 srfId itemId).1,
          (createInward s srfId itemId).2 ::
            (runCreates m (createInward s srfId itemId).1 srfId itemId).2) := rfl
    rw [hstep, hcreate]
    show ((runCreates m { s with inwards := ⟨itemId, InwardStatus.received⟩ :: s.inwards }
            srfId itemId).1,
          TransitionResult.allowed ::
            (runCreates m { s with inwards := ⟨itemId, InwardStatus.received⟩ :: s.inwards }
              srfId itemId).2) = _
    rw [hrun]
  rw [hmain]
  refine ⟨by simp, ?_, ?_, by simp⟩
  · simp [List.count_cons, List.count_replicate]
  · simp [List.count_cons, List.count_replicate]

/-- Witness for C6 at a concrete input: three serialized creation
attempts for one eligible item produce one success, two rejections and a
single new Inward record. -/
theorem concurrent_inward_creates_once_witness :
    (runCreates 3 ⟨[⟨1, SRFStatus.accepted⟩], [⟨10, 1⟩], []⟩ 1 10).2.length = 3 ∧
    (runCreates 3 ⟨[⟨1, SRFStatus.accepted⟩], [⟨10, 1⟩], []⟩ 1 10).2.count
      TransitionResult.allowed = 1 ∧
    (runCreates 3 ⟨[⟨1, SRFStatus.accepted⟩], [⟨10, 1⟩], []⟩ 1 10).2.count
      (TransitionResult.rejected "guard_failed:inward_eligible") = 3 - 1 ∧
    (runCreates 3 ⟨[⟨1, SRFStatus.accepted⟩], [⟨10, 1⟩], []⟩ 1 10).1.inwards.length =
      (⟨[⟨1, SRFStatus.accepted⟩], [⟨10, 1⟩], []⟩ : Store).inwards.length + 1 :=
  concurrent_inward_creates_once 3 ⟨[⟨1, SRFStatus.accepted⟩], [⟨10, 1⟩], []⟩ 1 10
    (by decide) (by decide)

/-- C8: the eligibility query is a pure read — it returns the store
unchanged, and its answer is the very guard the creation command uses, so
the same predicate drives both the read path and the write path. -/
theorem eligibility_query_readonly (s : Store) (srfId itemId : Nat) :
    (eligibilityQuery s srfId itemId).1 = s ∧
    ((eligibilityQuery s srfId itemId).2.eligible = true ↔
      (createInward s srfId itemId).2 = TransitionResult.allowed) := by
  refine ⟨rfl, ?_⟩
  show (checkInwardEligible s srfId itemId).eligible = true ↔ _
  unfold createInward
  by_cases he : (checkInwardEligible s srfId itemId).eligible = true
  · rw [if_pos he]
    simp [he]
  · rw [if_neg he]
    simp [he]

/-- C9: every SRF creation request accepted by `srfSchemaValid` has a
contact person of at least 2 characters, a non-empty items list, items
with non-empty equipment description and serial number, quantity at
least 1 after the default is applied, and a priority among
normal/urgent/critical after the default is applied. -/
theorem srfSchema_guarantees (f : SRFForm) (h : srfSchemaValid f = true) :
    (∃ cp, f.contact_person = some cp ∧ 2 ≤ cp.length) ∧
    f.items ≠ [] ∧
    (∀ it ∈ f.items,
      (∃ d, it.equip_desc = some d ∧ 0 < d.length) ∧
      (∃ sn, it.serial_no = some sn ∧ 0 < sn.length) ∧
      1 ≤ castQuantity it.quantity) ∧
    (∀ p, f.priority = some p → (p = "normal" ∨ p = "urgent" ∨ p = "critical")) ∧
    (castPriority f.priority = "normal" ∨ castPriority f.priority = "urgent" ∨
      castPriority f.priority = "critical") := by
  unfold srfSchemaValid at h
  simp only [Bool.and_eq_true] at h
  have hcp := h.1.1.1
  have hpr := h.1.1.2
  have hall := h.1.2
  have hlen := h.2
  have hp4 : ∀ p, f.priority = some p → (p = "normal" ∨ p = "urgent" ∨ p = "critical") := by
    intro p hp
    simp only [hp] at hpr
    rcases (Bool.or_eq_true _ _).mp hpr with h12 | h3
    · rcases (Bool.or_eq_true _ _).mp h12 with h1 | h2
      · exact Or.inl (eq_of_beq h1)
      · exact Or.inr (Or.inl (eq_of_beq h2))
    · exact Or.inr (Or.inr (eq_of_beq h3))
  refine ⟨?_, ?_, ?_, hp4, ?_⟩
  · cases hc : f.contact_person with
    | none =>
      simp only [hc] at hcp
      exact absurd hcp (by simp)
    | some cp =>
      simp only [hc] at hcp
      refine ⟨cp, rfl, ?_⟩
      exact of_decide_eq_true ((Bool.and_eq_true _ _).mp hcp).2
  · have hlen' : 1 ≤ f.items.length := of_decide_eq_true hlen
    intro hnil
    rw [hnil] at hlen'
    simp at hlen'
  · intro it hit
    have hv := List.all_eq_true.mp hall it hit
    unfold srfItemValid at hv
    simp only [Bool.and_eq_true] at hv
    have hd := hv.1.1
    have hsn := hv.1.2
    have hq := hv.2
    refine ⟨?_, ?_, ?_⟩
    · cases hD : it.equip_desc with
      | none =>
        simp only [hD] at hd
        exact absurd hd (by simp)
      | some d =>
        simp only [hD] at hd
        exact ⟨d, rfl, of_decide_eq_true hd⟩
    · cases hS : it.serial_no with
      | none =>
        simp only [hS] at hsn
        exact absurd hsn (by simp)
      | some sn =>
        simp only [hS] at hsn
        exact ⟨sn, rfl, of_decide_eq_true hsn⟩
    · cases hQ : it.quantity with
      | none => exact le_refl 1
      | some q =>
        simp only [hQ] at hq
        exact of_decide_eq_true hq
  · cases hP : f.priority with
    | none =>
      left
      rfl
    | some p =>
      have h4 := hp4 p hP
      simpa [castPriority] using h4

/-- Witness for C9 at a concrete input: a form with a 2-character contact
person, urgent priority and one fully specified item. -/
theorem srfSchema_guarantees_witness :
    (∃ cp, (some "Jo" : Option String) = some cp ∧ 2 ≤ cp.length) ∧
    ([⟨some "Gauge", none, none, some "SN1", none, none, none, none, some 2, none⟩] :
      List SRFItemForm) ≠ [] ∧
    (∀ it ∈ ([⟨some "Gauge", none, none, some "SN1", none, none, none, none, some 2, none⟩] :
        List SRFItemForm),
      (∃ d, it.equip_desc = some d ∧ 0 < d.length) ∧
      (∃ sn, it.serial_no = some sn ∧ 0 < sn.length) ∧
      1 ≤ castQuantity it.quantity) ∧
    (∀ p, (some "urgent" : Option String) = some p →
      (p = "normal" ∨ p = "urgent" ∨ p = "critical")) ∧
    (castPriority (some "urgent") = "normal" ∨ castPriority (some "urgent") = "urgent" ∨
      castPriority (some "urgent") = "critical") :=
  srfSchema_guarantees
    ⟨some "Jo", none, some "urgent",
      [⟨some "Gauge", none, none, some "SN1", none, none, none, none, some 2, none⟩]⟩
    (by decide)

/-- C10: `ProtectedRoute` renders its children exactly when the session
is authenticated, the user's type matches any required user type, and the
user's role belongs to any required role list; in every other case it
yields a redirect to the login route. -/
theorem protectedRoute_renders_iff (auth : AuthState) (u : AuthUser)
    (requiredUserType : Option ReqUserType) (requiredRole : Option (List String))
    (hu : auth.user = some u) :
    (protectedRoute auth requiredUserType requiredRole = RenderResult.children ↔
      (auth.isAuthenticated = true ∧
        (∀ t, requiredUserType = some t → u.user_type = t.value) ∧
        (∀ roles, requiredRole = some roles → u.role ∈ roles))) ∧
    (protectedRoute auth requiredUserType requiredRole = RenderResult.children ∨
      protectedRoute auth requiredUserType requiredRole = RenderResult.redirectLogin) := by
  constructor
  · unfold protectedRoute
    cases hauth : auth.isAuthenticated with
    | false => simp
    | true =>
      simp only [Bool.not_true, Bool.false_eq_true, if_false]
      cases requiredUserType with
      | none =>
        cases requiredRole with
        | none => simp [userTypeOf, roleOf, hu]
        | some roles =>
          by_cases hmem : u.role ∈ roles
          · simp [userTypeOf, roleOf, hu, hmem]
          · simp [userTypeOf, roleOf, hu, hmem]
      | some t =>
        by_cases hty : u.user_type = t.value
        · cases requiredRole with
          | none => simp [userTypeOf, roleOf, hu, hty]
          | some roles =>
            by_cases hmem : u.role ∈ roles
            · simp [userTypeOf, roleOf, hu, hty, hmem]
            · simp [userTypeOf, roleOf, hu, hty, hmem]
        · simp [userTypeOf, roleOf, hu, hty]
  · cases h : protectedRoute auth requiredUserType requiredRole with
    | children => exact Or.inl rfl
    | redirectLogin => exact Or.inr rfl

/-- Witness for C10 at a concrete input: an authenticated customer user
with the matching required user type and role list. -/
theorem protectedRoute_renders_iff_witness :
    (protectedRoute ⟨true, some ⟨"customer", "CUSTOMER_USER"⟩⟩ (some ReqUserType.customer)
        (some ["CUSTOMER_USER"]) = RenderResult.children ↔
      ((true : Bool) = true ∧
        (∀ t, (some ReqUserType.customer : Option ReqUserType) = some t →
          ("customer" : String) = t.value) ∧
        (∀ roles, (some ["CUSTOMER_USER"] : Option (List String)) = some roles →
          ("CUSTOMER_USER" : String) ∈ roles))) ∧
    (protectedRoute ⟨true, some ⟨"customer", "CUSTOMER_USER"⟩⟩ (some ReqUserType.customer)
        (some ["CUSTOMER_USER"]) = RenderResult.children ∨
      protectedRoute ⟨true, some ⟨"customer", "CUSTOMER_USER"⟩⟩ (some ReqUserType.customer)
        (some ["CUSTOMER_USER"]) = RenderResult.redirectLogin) :=
  protectedRoute_renders_iff ⟨true, some ⟨"customer", "CUSTOMER_USER"⟩⟩
    ⟨"customer", "CUSTOMER_USER"⟩ (some ReqUserType.customer) (some ["CUSTOMER_USER"]) rfl

end LIMS
